import Mathlib

/-!
Shallow embedding of `src/app.py` (Safebox notification form).

The program composes an HTML notification message from form input
(`build_final_message`), uploads non-image attachments to Drive
(`upload_file_to_drive`), and appends one five-value row per submission to a
spreadsheet (`append_notification_row`), from two page handlers
(`instant_messaging_page`, `scheduling_message_page`).

Pure string assembly is embedded directly; the two outbound API calls are
embedded as an environment of `Except`-valued oracles plus an explicit trace
of the calls a submission performs, so that ordering and error-handling
claims can be stated.
-/

/-- A file from the Streamlit uploader: `file.name`, `file.type` (MIME string,
here `ftype`) and the bytes of `file.getvalue()` (here `content`). -/
structure UploadedFile where
  fname : String
  ftype : String
  content : List Nat
deriving DecidableEq

/-- The standard base64 alphabet used by Python `base64.b64encode`. -/
def b64Alphabet : List Char :=
  "ABCDEFGHIJKLMNOPQRSTUVWXYZabcdefghijklmnopqrstuvwxyz0123456789+/".data

/-- Character of the base64 alphabet at index `n` (indices stay below 64 for
byte inputs). -/
def b64Char (n : Nat) : Char := b64Alphabet.getD n 'A'

/-- Python `base64.b64encode(bytes).decode()`: RFC 4648 encoding with `=`
padding, three bytes to four characters. -/
def b64encode : List Nat → String
  | [] => ""
  | [a] => String.mk [b64Char (a / 4), b64Char (a % 4 * 16), '=', '=']
  | [a, b] =>
      String.mk [b64Char (a / 4), b64Char (a % 4 * 16 + b / 16),
                 b64Char (b % 16 * 4), '=']
  | a :: b :: c :: rest =>
      String.mk [b64Char (a / 4), b64Char (a % 4 * 16 + b / 16),
                 b64Char (b % 16 * 4 + c / 64), b64Char (c % 64)] ++ b64encode rest

/-- Python's substring test `pat in s` on strings: `pat` occurs contiguously
in `s`. -/
def pyIn (pat s : String) : Bool := decide (pat.data <:+: s.data)

/-- Python's `s.startswith(pre)`. -/
def pyStartsWith (s pre : String) : Bool := pre.data.isPrefixOf s.data

/-- Line 96: the notification text wrapped in a justified paragraph. -/
def bodyHtml (text : String) : String :=
  "<p style=\"text-align: justify; margin: 0;\">" ++ text ++ "</p>"

/-- Line 107: one inline image, embedded as a data URI. -/
def imgTag (f : UploadedFile) : String :=
  "<img src=\"data:" ++ f.ftype ++ ";base64," ++ b64encode f.content ++
    "\" style=\"max-width:100%; margin-bottom:10px;\"><br>"

/-- Line 110: one download link for a non-image attachment already uploaded
to Drive at `link`. -/
def linkTag (link : String) (f : UploadedFile) : String :=
  "<a href=\"" ++ link ++ "\" target=\"_blank\">Download " ++ f.fname ++ "</a><br>"

/-- Lines 114/116: the centered wrapper holding the inline images. -/
def imagesDivOpen : String := "<div style='text-align: center;'>"

/-- Line 121: the left-aligned wrapper holding the download links. -/
def linksDivOpen : String := "<div style='text-align: left; margin-top: 10px;'>"

/-- Line 124: the closing signature block. -/
def signatureHtml : String :=
  "<div style='text-align: left;'>Best regards,<br>Peace Ekeinde<br>Safebox Technologies</div>"

/-- Lines 101-110 of `build_final_message`, with the Drive link of each
non-image file supplied by the oracle `link`: the loop accumulating
`(images_html, non_image_html)` over the uploaded files in order.
(`if uploaded_files:` only skips the loop when the list is empty or `None`,
which leaves both accumulators `""`, exactly as the empty case here.) -/
def attachHtml (link : UploadedFile → String) : List UploadedFile → String × String
  | [] => ("", "")
  | f :: rest =>
      let p := attachHtml link rest
      if pyStartsWith f.ftype "image/" then
        (imgTag f ++ p.1, p.2)
      else
        (p.1, linkTag (link f) f ++ p.2)

/-- Lines 112-121 of `build_final_message`: position the images div relative
to the body paragraph (`"Top"` above, anything else below), then append the
links div when there are non-image attachments. -/
def assembleNoSig (text images_html non_image_html : String)
    (attachment_position : Option String) : String :=
  let body_html := bodyHtml text
  let final_message :=
    if images_html ≠ "" then
      if attachment_position == some "Top" then
        imagesDivOpen ++ images_html ++ "</div>" ++ body_html
      else
        body_html ++ imagesDivOpen ++ images_html ++ "</div>"
    else body_html
  if non_image_html ≠ "" then
    final_message ++ (linksDivOpen ++ non_image_html ++ "</div>")
  else final_message

/-- Lines 112-126 of `build_final_message`: the message body plus, when
`"Best regards" not in text`, the closing signature. -/
def assemble (text images_html non_image_html : String)
    (attachment_position : Option String) : String :=
  let final_message := assembleNoSig text images_html non_image_html attachment_position
  if pyIn "Best regards" text then final_message
  else final_message ++ signatureHtml

/-- `build_final_message(text, uploaded_files, attachment_position)` (lines
86-126), with Drive links supplied by the pure oracle `link`. -/
def buildFinalMessage (link : UploadedFile → String) (text : String)
    (uploaded_files : List UploadedFile) (attachment_position : Option String) : String :=
  let p := attachHtml link uploaded_files
  assemble text p.1 p.2 attachment_position

/-- The message `build_final_message` has built just before the signature
step of lines 123-124. -/
def buildMessageNoSig (link : UploadedFile → String) (text : String)
    (uploaded_files : List UploadedFile) (attachment_position : Option String) : String :=
  let p := attachHtml link uploaded_files
  assembleNoSig text p.1 p.2 attachment_position

deriving instance DecidableEq for Except

/-- Outcome-carrying record of one outbound API call a submission performs.
`driveUpload` is `upload_file_to_drive` (Drive `files().create` +
`permissions().create` + link lookup; result the `webViewLink` or the raised
error); `sheetAppend` is `append_notification_row` (Sheets
`values().append`).  The read/update/delete constructors exist in the API
surface but are proved never to occur in any trace of this program. -/
inductive ApiCall where
  | driveUpload (f : UploadedFile) (result : Except String String)
  | sheetAppend (row : List String) (result : Except String Unit)
  | sheetRead (range : String)
  | sheetUpdate (range : String) (values : List (List String))
  | sheetDelete (range : String)
deriving DecidableEq

/-- Discriminator: is this call a Drive upload? -/
def ApiCall.isUpload : ApiCall → Bool
  | ApiCall.driveUpload _ _ => true
  | _ => false

/-- Discriminator: is this call a spreadsheet row append? -/
def ApiCall.isAppend : ApiCall → Bool
  | ApiCall.sheetAppend _ _ => true
  | _ => false

/-- The external world: what the Drive upload of a file and the Sheets append
of a row return (`Except.error` models a raised API exception). -/
structure Env where
  upload : UploadedFile → Except String String
  append : List String → Except String Unit

/-- Lines 101-110 of `build_final_message` with real uploads: the attachment
loop, returning the Drive calls it performed in order together with either
`(images_html, non_image_html)` or the first upload exception, which aborts
the loop (later files are neither encoded nor uploaded). -/
def driveLoop (env : Env) : List UploadedFile → List ApiCall × Except String (String × String)
  | [] => ([], Except.ok ("", ""))
  | f :: rest =>
      if pyStartsWith f.ftype "image/" then
        let p := driveLoop env rest
        (p.1, p.2.map fun q => (imgTag f ++ q.1, q.2))
      else
        match env.upload f with
        | Except.ok link =>
            let p := driveLoop env rest
            (ApiCall.driveUpload f (Except.ok link) :: p.1,
             p.2.map fun q => (q.1, linkTag link f ++ q.2))
        | Except.error e => ([ApiCall.driveUpload f (Except.error e)], Except.error e)

/-- `build_final_message` with real uploads: the Drive calls performed and
either the final HTML message or the upload exception that escaped it. -/
def buildFinalMessageE (env : Env) (text : String) (uploaded_files : List UploadedFile)
    (attachment_position : Option String) : List ApiCall × Except String String :=
  let p := driveLoop env uploaded_files
  (p.1, p.2.map fun q => assemble text q.1 q.2 attachment_position)

/-- A `datetime.date` value (year, month, day). -/
structure PyDate where
  year : Nat
  month : Nat
  day : Nat
deriving DecidableEq

/-- Python `a <= b` on `datetime.date`: lexicographic on (year, month, day). -/
def dateLe (a b : PyDate) : Bool :=
  decide (a.year < b.year ∨ (a.year = b.year ∧
    (a.month < b.month ∨ (a.month = b.month ∧ a.day ≤ b.day))))

/-- Two-digit zero-padded field of `strftime`. -/
def pad2 (n : Nat) : String := if n < 10 then "0" ++ toString n else toString n

/-- Four-digit zero-padded year of `strftime`. -/
def pad4 (n : Nat) : String :=
  if n < 10 then "000" ++ toString n
  else if n < 100 then "00" ++ toString n
  else if n < 1000 then "0" ++ toString n
  else toString n

/-- `notification_date.strftime("%Y-%m-%d")`. -/
def dateStr (d : PyDate) : String :=
  pad4 d.year ++ "-" ++ pad2 d.month ++ "-" ++ pad2 d.day

/-- The fixed dropdown options for the Recipient Sheet (line 32). -/
def RECIPIENTS_OPTIONS : List String :=
  ["Employee Master Data", "Zummey", "SafeBox Energy", "Admin Master Data"]

/-- One filled-in form, shared by both pages: subject, recipient selection,
date, attachments, image position choice, and message text. -/
structure Form where
  notification_type : String
  recipients_sheet : String
  notification_date : PyDate
  uploaded_files : List UploadedFile
  attachment_position : Option String
  notification_message : String

/-- Line 195/243: the five ordered values of the row sent to the append call. -/
def rowFor (form : Form) (final_message : String) : List String :=
  [form.notification_type, form.recipients_sheet, final_message,
   dateStr form.notification_date, "send"]

/-- What one submission did: the outbound calls in order, the `st.error` and
`st.success` messages shown, and the exception that escaped the handler
uncaught, if any. -/
structure RunResult where
  calls : List ApiCall
  errors : List String
  successes : List String
  uncaught : Option String
deriving DecidableEq

/-- The submit branch of `instant_messaging_page` (lines 190-202).
`build_final_message` is called outside the `try` block, so an upload
exception escapes the handler; only `append_notification_row` is guarded. -/
def instantSubmit (env : Env) (form : Form) : RunResult :=
  let b := buildFinalMessageE env form.notification_message form.uploaded_files
    form.attachment_position
  match b.2 with
  | Except.error e => { calls := b.1, errors := [], successes := [], uncaught := some e }
  | Except.ok final_message =>
      let row_data := rowFor form final_message
      match env.append row_data with
      | Except.ok _ =>
          { calls := b.1 ++ [ApiCall.sheetAppend row_data (Except.ok ())],
            errors := [], successes := ["Notification sent successfully!"],
            uncaught := none }
      | Except.error e =>
          { calls := b.1 ++ [ApiCall.sheetAppend row_data (Except.error e)],
            errors := ["An error occurred while sending the notification: " ++ e],
            successes := [], uncaught := none }

/-- Line 236: the error shown when the scheduled date is not in the future. -/
def schedulingDateError : String :=
  "Error: Please set a future date for scheduling or go back to use the Instant Messaging interface."

/-- The submit branch of `scheduling_message_page` (lines 233-250): reject a
date not strictly after `today`, otherwise proceed exactly as the instant
page does, with the scheduling wording. -/
def schedulingSubmit (env : Env) (today : PyDate) (form : Form) : RunResult :=
  if dateLe form.notification_date today then
    { calls := [], errors := [schedulingDateError], successes := [], uncaught := none }
  else
    let b := buildFinalMessageE env form.notification_message form.uploaded_files
      form.attachment_position
    match b.2 with
    | Except.error e => { calls := b.1, errors := [], successes := [], uncaught := some e }
    | Except.ok final_message =>
        let row_data := rowFor form final_message
        match env.append row_data with
        | Except.ok _ =>
            { calls := b.1 ++ [ApiCall.sheetAppend row_data (Except.ok ())],
              errors := [],
              successes := ["Notification scheduled successfully for " ++
                dateStr form.notification_date ++ "!"],
              uncaught := none }
        | Except.error e =>
            { calls := b.1 ++ [ApiCall.sheetAppend row_data (Except.error e)],
              errors := ["An error occurred while scheduling the notification: " ++ e],
              successes := [], uncaught := none }

lemma pyIn_iff (pat s : String) : pyIn pat s = true ↔ pat.data <:+: s.data := by
  simp [pyIn]

lemma pyIn_of_eq_append (pat a b s : String) (h : s = a ++ pat ++ b) :
    pyIn pat s = true := by
  rw [pyIn_iff, h]
  exact ⟨a.data, b.data, by simp [String.data_append]⟩

lemma pyIn_self (p : String) : pyIn p p = true := by
  apply pyIn_of_eq_append p "" ""
  rw [String.empty_append, String.append_empty]

lemma pyIn_trans (p q s : String) (h1 : pyIn p q = true) (h2 : pyIn q s = true) :
    pyIn p s = true := by
  rw [pyIn_iff] at h1 h2 ⊢
  exact h1.trans h2

lemma pyIn_append_left (p a b : String) (h : pyIn p a = true) :
    pyIn p (a ++ b) = true := by
  rw [pyIn_iff] at h ⊢
  obtain ⟨s, t, hst⟩ := h
  exact ⟨s, t ++ b.data, by rw [String.data_append, ← hst]; simp⟩

lemma pyIn_append_right (p a b : String) (h : pyIn p b = true) :
    pyIn p (a ++ b) = true := by
  rw [pyIn_iff] at h ⊢
  obtain ⟨s, t, hst⟩ := h
  exact ⟨a.data ++ s, t, by rw [String.data_append, ← hst]; simp⟩

lemma ne_empty_of_length_pos (s : String) (h : 0 < s.length) : s ≠ "" := by
  intro hc
  rw [hc, String.length_empty] at h
  exact Nat.lt_irrefl 0 h

lemma decomp_ne_empty (s a pat b : String) (h : s = a ++ pat ++ b)
    (hp : 0 < pat.length) : s ≠ "" := by
  apply ne_empty_of_length_pos
  rw [h, String.length_append, String.length_append]
  omega

lemma imgTag_length_pos (f : UploadedFile) : 0 < (imgTag f).length := by
  unfold imgTag
  simp only [String.length_append]
  have h : 0 < ("<img src=\"data:" : String).length := by decide
  omega

lemma linkTag_length_pos (l : String) (f : UploadedFile) : 0 < (linkTag l f).length := by
  unfold linkTag
  simp only [String.length_append]
  have h : 0 < ("<a href=\"" : String).length := by decide
  omega

lemma attach_fst_decomp (link : UploadedFile → String) (files : List UploadedFile)
    (g : UploadedFile) (hg : g ∈ files) (him : pyStartsWith g.ftype "image/" = true) :
    ∃ a b, (attachHtml link files).1 = a ++ imgTag g ++ b := by
  induction files with
  | nil => cases hg
  | cons f rest ih =>
    rcases List.mem_cons.mp hg with hgf | hgr
    · subst hgf
      refine ⟨"", (attachHtml link rest).1, ?_⟩
      simp [attachHtml, him, String.empty_append]
    · obtain ⟨a, b, hab⟩ := ih hgr
      by_cases hf : pyStartsWith f.ftype "image/" = true
      · refine ⟨imgTag f ++ a, b, ?_⟩
        simp [attachHtml, hf, hab, String.append_assoc]
      · refine ⟨a, b, ?_⟩
        simp [attachHtml, hf, hab]

lemma attach_snd_decomp (link : UploadedFile → String) (files : List UploadedFile)
    (g : UploadedFile) (hg : g ∈ files) (him : pyStartsWith g.ftype "image/" = false) :
    ∃ a b, (attachHtml link files).2 = a ++ linkTag (link g) g ++ b := by
  induction files with
  | nil => cases hg
  | cons f rest ih =>
    rcases List.mem_cons.mp hg with hgf | hgr
    · subst hgf
      refine ⟨"", (attachHtml link rest).2, ?_⟩
      simp [attachHtml, him, String.empty_append]
    · obtain ⟨a, b, hab⟩ := ih hgr
      by_cases hf : pyStartsWith f.ftype "image/" = true
      · refine ⟨a, b, ?_⟩
        simp [attachHtml, hf, hab]
      · refine ⟨linkTag (link f) f ++ a, b, ?_⟩
        simp [attachHtml, hf, hab, String.append_assoc]

lemma attach_fst_ne_empty (link : UploadedFile → String) (files : List UploadedFile)
    (g : UploadedFile) (hg : g ∈ files) (him : pyStartsWith g.ftype "image/" = true) :
    (attachHtml link files).1 ≠ "" := by
  obtain ⟨a, b, hab⟩ := attach_fst_decomp link files g hg him
  exact decomp_ne_empty _ a (imgTag g) b hab (imgTag_length_pos g)

lemma attach_snd_ne_empty (link : UploadedFile → String) (files : List UploadedFile)
    (g : UploadedFile) (hg : g ∈ files) (him : pyStartsWith g.ftype "image/" = false) :
    (attachHtml link files).2 ≠ "" := by
  obtain ⟨a, b, hab⟩ := attach_snd_decomp link files g hg him
  exact decomp_ne_empty _ a (linkTag (link g) g) b hab (linkTag_length_pos (link g) g)

lemma assemble_eq_noSig_append (text i n : String) (pos : Option String) :
    assemble text i n pos = assembleNoSig text i n pos
      ++ (if pyIn "Best regards" text then "" else signatureHtml) := by
  by_cases hs : pyIn "Best regards" text = true
  · simp [assemble, hs, String.append_empty]
  · simp [assemble, hs]

lemma buildFinalMessage_eq_noSig_append (link : UploadedFile → String) (text : String)
    (files : List UploadedFile) (pos : Option String) :
    buildFinalMessage link text files pos = buildMessageNoSig link text files pos
      ++ (if pyIn "Best regards" text then "" else signatureHtml) := by
  simp [buildFinalMessage, buildMessageNoSig, assemble_eq_noSig_append]

lemma assembleNoSig_images_factor (text i n : String) (pos : Option String) (hi : i ≠ "") :
    ∃ a b, assembleNoSig text i n pos = a ++ i ++ b := by
  cases hpos : (pos == some "Top") <;> by_cases hn : n ≠ ""
  · exact ⟨bodyHtml text ++ imagesDivOpen,
      "</div>" ++ (linksDivOpen ++ n ++ "</div>"),
      by simp [assembleNoSig, hpos, hi, hn, String.append_assoc]⟩
  · exact ⟨bodyHtml text ++ imagesDivOpen, "</div>",
      by simp [assembleNoSig, hpos, hi, hn, String.append_assoc]⟩
  · exact ⟨imagesDivOpen, "</div>" ++ bodyHtml text ++ (linksDivOpen ++ n ++ "</div>"),
      by simp [assembleNoSig, hpos, hi, hn, String.append_assoc]⟩
  · exact ⟨imagesDivOpen, "</div>" ++ bodyHtml text,
      by simp [assembleNoSig, hpos, hi, hn, String.append_assoc]⟩

lemma build_images_factor (link : UploadedFile → String) (text : String)
    (files : List UploadedFile) (pos : Option String)
    (h : (attachHtml link files).1 ≠ "") :
    ∃ a b, buildFinalMessage link text files pos = a ++ (attachHtml link files).1 ++ b := by
  obtain ⟨a, b, hab⟩ :=
    assembleNoSig_images_factor text (attachHtml link files).1 (attachHtml link files).2 pos h
  refine ⟨a, b ++ (if pyIn "Best regards" text then "" else signatureHtml), ?_⟩
  rw [buildFinalMessage_eq_noSig_append]
  show buildMessageNoSig link text files pos ++ _ = _
  simp [buildMessageNoSig, hab, String.append_assoc]

lemma driveLoop_calls_upload (env : Env) (files : List UploadedFile) :
    ∀ c ∈ (driveLoop env files).1, ∃ f r, c = ApiCall.driveUpload f r := by
  induction files with
  | nil => simp [driveLoop]
  | cons f rest ih =>
    by_cases hf : pyStartsWith f.ftype "image/" = true
    · simpa [driveLoop, hf] using ih
    · cases hu : env.upload f with
      | ok l =>
        intro c hc
        simp [driveLoop, hf, hu] at hc
        rcases hc with hc | hc
        · exact ⟨f, Except.ok l, hc⟩
        · exact ih c hc
      | error e =>
        intro c hc
        simp [driveLoop, hf, hu] at hc
        exact ⟨f, Except.error e, hc⟩

lemma driveLoop_ok (env : Env) (files : List UploadedFile)
    (h : ∀ f, ∃ l, env.upload f = Except.ok l) :
    ∃ q, (driveLoop env files).2 = Except.ok q := by
  induction files with
  | nil => exact ⟨("", ""), rfl⟩
  | cons f rest ih =>
    obtain ⟨q, hq⟩ := ih
    by_cases hf : pyStartsWith f.ftype "image/" = true
    · exact ⟨(imgTag f ++ q.1, q.2), by simp [driveLoop, hf, hq, Except.map]⟩
    · obtain ⟨l, hl⟩ := h f
      exact ⟨(q.1, linkTag l f ++ q.2), by simp [driveLoop, hf, hl, hq, Except.map]⟩

lemma instant_cases (env : Env) (form : Form) (b : List ApiCall × Except String String)
    (hb : b = buildFinalMessageE env form.notification_message form.uploaded_files
      form.attachment_position) :
    (∃ e, b.2 = Except.error e
       ∧ instantSubmit env form
           = { calls := b.1, errors := [], successes := [], uncaught := some e })
    ∨ (∃ fm, b.2 = Except.ok fm
       ∧ ((env.append (rowFor form fm) = Except.ok ()
            ∧ instantSubmit env form
                = { calls := b.1 ++ [ApiCall.sheetAppend (rowFor form fm) (Except.ok ())],
                    errors := [], successes := ["Notification sent successfully!"],
                    uncaught := none })
          ∨ (∃ e, env.append (rowFor form fm) = Except.error e
            ∧ instantSubmit env form
                = { calls := b.1 ++ [ApiCall.sheetAppend (rowFor form fm) (Except.error e)],
                    errors := ["An error occurred while sending the notification: " ++ e],
                    successes := [], uncaught := none }))) := by
  subst hb
  cases hb2 : (buildFinalMessageE env form.notification_message form.uploaded_files
      form.attachment_position).2 with
  | error e => exact Or.inl ⟨e, rfl, by simp [instantSubmit, hb2]⟩
  | ok fm =>
    refine Or.inr ⟨fm, rfl, ?_⟩
    cases hap : env.append (rowFor form fm) with
    | ok u =>
      cases u
      exact Or.inl ⟨rfl, by simp [instantSubmit, hb2, hap]⟩
    | error e => exact Or.inr ⟨e, rfl, by simp [instantSubmit, hb2, hap]⟩

lemma scheduling_cases (env : Env) (today : PyDate) (form : Form)
    (b : List ApiCall × Except String String)
    (hb : b = buildFinalMessageE env form.notification_message form.uploaded_files
      form.attachment_position) :
    (dateLe form.notification_date today = true
       ∧ schedulingSubmit env today form
           = { calls := [], errors := [schedulingDateError], successes := [], uncaught := none })
    ∨ (dateLe form.notification_date today = false
       ∧ ((∃ e, b.2 = Except.error e
            ∧ schedulingSubmit env today form
                = { calls := b.1, errors := [], successes := [], uncaught := some e })
          ∨ (∃ fm, b.2 = Except.ok fm
            ∧ ((env.append (rowFor form fm) = Except.ok ()
                 ∧ schedulingSubmit env today form
                     = { calls := b.1 ++ [ApiCall.sheetAppend (rowFor form fm) (Except.ok ())],
                         errors := [],
                         successes := ["Notification scheduled successfully for "
                           ++ dateStr form.notification_date ++ "!"],
                         uncaught := none })
               ∨ (∃ e, env.append (rowFor form fm) = Except.error e
                 ∧ schedulingSubmit env today form
                     = { calls := b.1 ++ [ApiCall.sheetAppend (rowFor form fm) (Except.error e)],
                         errors := ["An error occurred while scheduling the notification: " ++ e],
                         successes := [], uncaught := none }))))) := by
  subst hb
  by_cases hd : dateLe form.notification_date today = true
  · exact Or.inl ⟨hd, by simp [schedulingSubmit, hd]⟩
  · refine Or.inr ⟨by simpa using hd, ?_⟩
    cases hb2 : (buildFinalMessageE env form.notification_message form.uploaded_files
        form.attachment_position).2 with
    | error e => exact Or.inl ⟨e, rfl, by simp [schedulingSubmit, hd, hb2]⟩
    | ok fm =>
      refine Or.inr ⟨fm, rfl, ?_⟩
      cases hap : env.append (rowFor form fm) with
      | ok u =>
        cases u
        exact Or.inl ⟨rfl, by simp [schedulingSubmit, hd, hb2, hap]⟩
      | error e => exact Or.inr ⟨e, rfl, by simp [schedulingSubmit, hd, hb2, hap]⟩

/-- A benign world: every upload returns a link, every append succeeds. -/
def envOk : Env :=
  { upload := fun _ => Except.ok "https://drive.example/f", append := fun _ => Except.ok () }

/-- A world where the Drive upload raises. -/
def envUploadFail : Env :=
  { upload := fun _ => Except.error "boom", append := fun _ => Except.ok () }

/-- A world where the Sheets append raises. -/
def envAppendFail : Env :=
  { upload := fun _ => Except.ok "https://drive.example/f", append := fun _ => Except.error "quota" }

/-- A sample image attachment. -/
def pngFile : UploadedFile := { fname := "pic.png", ftype := "image/png", content := [1, 2, 3] }

/-- A sample non-image attachment. -/
def pdfFile : UploadedFile := { fname := "doc.pdf", ftype := "application/pdf", content := [4, 5] }

/-- A filled form with the given attachments, position and date. -/
def mkForm (files : List UploadedFile) (pos : Option String) (d : PyDate) : Form :=
  { notification_type := "Subject", recipients_sheet := "Zummey", notification_date := d,
    uploaded_files := files, attachment_position := pos, notification_message := "hello" }

/-- A form dated in the past, no attachments. -/
def formPast : Form := mkForm [] none { year := 2000, month := 1, day := 1 }

/-- A form dated in the future, no attachments. -/
def formFuture : Form := mkForm [] none { year := 2030, month := 6, day := 1 }

/-- A form with one non-image attachment. -/
def formPdf : Form := mkForm [pdfFile] none { year := 2030, month := 6, day := 1 }

/-- C1 counterexample: with `text = "Best regards"` the signature block is not
in the input text, yet `build_final_message` appends nothing, because the code
tests for the phrase `"Best regards"`, not for the signature block itself. -/
theorem signature_iff_claim_counterexample :
    ¬ (pyIn signatureHtml "Best regards" = false →
       pyIn signatureHtml (buildFinalMessage (fun _ => "L") "Best regards" [] none) = true) := by
  decide

/-- C1 (amended): `build_final_message` appends the closing signature block
exactly once, after everything else, if and only if the substring
`"Best regards"` does not occur in the input text; since the signature block
contains that phrase, a text that already includes the signature never
receives a second copy. -/
theorem signature_append_condition (link : UploadedFile → String) (text : String)
    (files : List UploadedFile) (pos : Option String) :
    (pyIn "Best regards" text = false →
       buildFinalMessage link text files pos
         = buildMessageNoSig link text files pos ++ signatureHtml)
    ∧ (pyIn "Best regards" text = true →
       buildFinalMessage link text files pos = buildMessageNoSig link text files pos)
    ∧ (pyIn signatureHtml text = true → pyIn "Best regards" text = true) := by
  refine ⟨?_, ?_, ?_⟩
  · intro h
    simp [buildFinalMessage_eq_noSig_append, h]
  · intro h
    simp [buildFinalMessage_eq_noSig_append, h, String.append_empty]
  · intro h
    exact pyIn_trans _ _ _ (by decide) h

/-- Witness for C1: at concrete inputs the signature is appended when the
phrase is absent and not appended when it is present. -/
theorem signature_append_condition_witness :
    (buildFinalMessage (fun _ => "L") "hello" [] none
       = buildMessageNoSig (fun _ => "L") "hello" [] none ++ signatureHtml)
    ∧ (buildFinalMessage (fun _ => "L") "Best regards" [] none
       = buildMessageNoSig (fun _ => "L") "Best regards" [] none)
    ∧ pyIn "Best regards" signatureHtml = true :=
  ⟨(signature_append_condition (fun _ => "L") "hello" [] none).1 (by decide),
   (signature_append_condition (fun _ => "L") "Best regards" [] none).2.1 (by decide),
   (signature_append_condition (fun _ => "L") signatureHtml [] none).2.2 (pyIn_self _)⟩

/-- C10: when an image attachment is present and the position is any value
other than `some "Top"` (`none` included), the images div is placed directly
after the body paragraph. -/
theorem images_default_bottom (link : UploadedFile → String) (text : String)
    (files : List UploadedFile) (pos : Option String) (g : UploadedFile)
    (hg : g ∈ files) (him : pyStartsWith g.ftype "image/" = true)
    (hpos : pos ≠ some "Top") :
    ∃ tail, buildFinalMessage link text files pos
      = bodyHtml text ++ (imagesDivOpen ++ (attachHtml link files).1 ++ "</div>") ++ tail := by
  have hi := attach_fst_ne_empty link files g hg him
  have hpb : (pos == some "Top") = false := by
    cases hb : pos == some "Top" with
    | false => rfl
    | true => exact absurd (eq_of_beq hb) hpos
  rw [buildFinalMessage_eq_noSig_append]
  by_cases hn : (attachHtml link files).2 ≠ ""
  · refine ⟨(linksDivOpen ++ (attachHtml link files).2 ++ "</div>")
        ++ (if pyIn "Best regards" text then "" else signatureHtml), ?_⟩
    simp [buildMessageNoSig, assembleNoSig, hi, hn, hpb, String.append_assoc]
  · refine ⟨(if pyIn "Best regards" text then "" else signatureHtml), ?_⟩
    simp [buildMessageNoSig, assembleNoSig, hi, hn, hpb, String.append_assoc]

/-- Witness for C10: one image, position `none`: the images div follows the
body paragraph. -/
theorem images_default_bottom_witness :
    ∃ tail, buildFinalMessage (fun _ => "L") "hi" [pngFile] none
      = bodyHtml "hi"
        ++ (imagesDivOpen ++ (attachHtml (fun _ => "L") [pngFile]).1 ++ "</div>") ++ tail :=
  images_default_bottom (fun _ => "L") "hi" [pngFile] none pngFile (by decide) (by decide)
    (by decide)

/-- C3: with an image attachment present, the images div precedes the body
paragraph for position `"Top"` and follows it for `"Bottom"`, and for every
position each image attachment is embedded inline: its
`data:<mime>;base64,<bytes>` URI occurs in the output. -/
theorem images_inline_and_positioned (link : UploadedFile → String) (text : String)
    (files : List UploadedFile) (g : UploadedFile) (hg : g ∈ files)
    (him : pyStartsWith g.ftype "image/" = true) :
    (∃ t1, buildFinalMessage link text files (some "Top")
       = (imagesDivOpen ++ (attachHtml link files).1 ++ "</div>") ++ (bodyHtml text ++ t1))
    ∧ (∃ t2, buildFinalMessage link text files (some "Bottom")
       = bodyHtml text ++ ((imagesDivOpen ++ (attachHtml link files).1 ++ "</div>") ++ t2))
    ∧ (∀ pos : Option String, ∀ f ∈ files, pyStartsWith f.ftype "image/" = true →
        pyIn ("data:" ++ f.ftype ++ ";base64," ++ b64encode f.content)
          (buildFinalMessage link text files pos) = true) := by
  have hi := attach_fst_ne_empty link files g hg him
  have htop : ((some "Top" : Option String) == some "Top") = true := by decide
  have hbot : ((some "Bottom" : Option String) == some "Top") = false := by decide
  refine ⟨?_, ?_, ?_⟩
  · rw [buildFinalMessage_eq_noSig_append]
    by_cases hn : (attachHtml link files).2 ≠ ""
    · refine ⟨(linksDivOpen ++ (attachHtml link files).2 ++ "</div>")
          ++ (if pyIn "Best regards" text then "" else signatureHtml), ?_⟩
      simp [buildMessageNoSig, assembleNoSig, hi, hn, htop, String.append_assoc]
    · refine ⟨(if pyIn "Best regards" text then "" else signatureHtml), ?_⟩
      simp [buildMessageNoSig, assembleNoSig, hi, hn, htop, String.append_assoc]
  · rw [buildFinalMessage_eq_noSig_append]
    by_cases hn : (attachHtml link files).2 ≠ ""
    · refine ⟨(linksDivOpen ++ (attachHtml link files).2 ++ "</div>")
          ++ (if pyIn "Best regards" text then "" else signatureHtml), ?_⟩
      simp [buildMessageNoSig, assembleNoSig, hi, hn, hbot, String.append_assoc]
    · refine ⟨(if pyIn "Best regards" text then "" else signatureHtml), ?_⟩
      simp [buildMessageNoSig, assembleNoSig, hi, hn, hbot, String.append_assoc]
  · intro pos f hf hfim
    have h1 : pyIn ("data:" ++ f.ftype ++ ";base64," ++ b64encode f.content)
        (imgTag f) = true := by
      apply pyIn_of_eq_append _ "<img src=\""
        "\" style=\"max-width:100%; margin-bottom:10px;\"><br>"
      have hsplit : ("<img src=\"data:" : String) = "<img src=\"" ++ "data:" := by decide
      simp only [imgTag, String.append_assoc]
      rw [hsplit, String.append_assoc]
    obtain ⟨a, b, hab⟩ := attach_fst_decomp link files f hf hfim
    have h2 : pyIn (imgTag f) (attachHtml link files).1 = true :=
      pyIn_of_eq_append _ a b _ hab
    obtain ⟨c, d, hcd⟩ := build_images_factor link text files pos
      (attach_fst_ne_empty link files f hf hfim)
    have h3 : pyIn (attachHtml link files).1 (buildFinalMessage link text files pos) = true :=
      pyIn_of_eq_append _ c d _ hcd
    exact pyIn_trans _ _ _ h1 (pyIn_trans _ _ _ h2 h3)

/-- Witness for C3: one image attachment, position `"Top"`: the images div
precedes the body paragraph. -/
theorem images_inline_and_positioned_witness :
    ∃ t1, buildFinalMessage (fun _ => "L") "hi" [pngFile] (some "Top")
      = (imagesDivOpen ++ (attachHtml (fun _ => "L") [pngFile]).1 ++ "</div>")
        ++ (bodyHtml "hi" ++ t1) :=
  (images_inline_and_positioned (fun _ => "L") "hi" [pngFile] pngFile (by decide)
    (by decide)).1

/-- C2: with a non-image attachment present, its download link occurs in the
links block, and for every position (`"Top"`, `"Bottom"` or `none`) the links
block sits after the body paragraph (and after the images div whenever that
div is below the body); everything from the links block onward is literally
independent of the position. -/
theorem nonimage_links_after_body (link : UploadedFile → String) (text : String)
    (files : List UploadedFile) (pos : Option String) (g : UploadedFile)
    (hg : g ∈ files) (him : pyStartsWith g.ftype "image/" = false) :
    (∃ a b, (attachHtml link files).2 = a ++ linkTag (link g) g ++ b)
    ∧ ∃ pre mid,
        (pre = "" ∨ pre = imagesDivOpen ++ (attachHtml link files).1 ++ "</div>")
        ∧ (mid = "" ∨ mid = imagesDivOpen ++ (attachHtml link files).1 ++ "</div>")
        ∧ (pre ≠ "" → pos = some "Top")
        ∧ (pos = some "Top" → mid = "")
        ∧ buildFinalMessage link text files pos
            = pre ++ (bodyHtml text ++ (mid
                ++ ((linksDivOpen ++ (attachHtml link files).2 ++ "</div>")
                  ++ (if pyIn "Best regards" text then "" else signatureHtml)))) := by
  have hn := attach_snd_ne_empty link files g hg him
  refine ⟨attach_snd_decomp link files g hg him, ?_⟩
  rw [buildFinalMessage_eq_noSig_append]
  by_cases hi : (attachHtml link files).1 ≠ ""
  · cases hpos : pos == some "Top" with
    | true =>
      refine ⟨imagesDivOpen ++ (attachHtml link files).1 ++ "</div>", "",
        Or.inr rfl, Or.inl rfl, fun _ => eq_of_beq hpos, fun _ => rfl, ?_⟩
      simp [buildMessageNoSig, assembleNoSig, hi, hn, hpos, String.append_assoc]
    | false =>
      refine ⟨"", imagesDivOpen ++ (attachHtml link files).1 ++ "</div>",
        Or.inl rfl, Or.inr rfl, fun hc => absurd rfl hc,
        fun hp => by rw [hp] at hpos; simp at hpos, ?_⟩
      simp [buildMessageNoSig, assembleNoSig, hi, hn, hpos, String.append_assoc]
  · refine ⟨"", "", Or.inl rfl, Or.inl rfl, fun hc => absurd rfl hc, fun _ => rfl, ?_⟩
    simp [buildMessageNoSig, assembleNoSig, hi, hn, String.append_assoc]

/-- Witness for C2: one non-image attachment, position `none`: its link block
sits after the body paragraph. -/
theorem nonimage_links_after_body_witness :
    ∃ a b, (attachHtml (fun _ => "L") [pdfFile]).2 = a ++ linkTag "L" pdfFile ++ b :=
  (nonimage_links_after_body (fun _ => "L") "hi" [pdfFile] none pdfFile (by decide)
    (by decide)).1

lemma buildE_calls_upload (env : Env) (text : String) (files : List UploadedFile)
    (pos : Option String) :
    ∀ c ∈ (buildFinalMessageE env text files pos).1, ∃ f r, c = ApiCall.driveUpload f r := by
  simpa [buildFinalMessageE] using driveLoop_calls_upload env files

lemma no_append_in_uploads {b1 : List ApiCall}
    (hb : ∀ c ∈ b1, ∃ f r, c = ApiCall.driveUpload f r)
    {row : List String} {r : Except String Unit}
    (h : ApiCall.sheetAppend row r ∈ b1) : False := by
  obtain ⟨f, rr, heq⟩ := hb _ h
  exact ApiCall.noConfusion heq

lemma mem_calls_append_case {b1 : List ApiCall}
    (hb : ∀ c ∈ b1, ∃ f r, c = ApiCall.driveUpload f r)
    {row0 row : List String} {r0 r : Except String Unit}
    (h : ApiCall.sheetAppend row r ∈ b1 ++ [ApiCall.sheetAppend row0 r0]) :
    row = row0 ∧ r = r0 := by
  rcases List.mem_append.mp h with h1 | h1
  · exact absurd h1 (fun hc => no_append_in_uploads hb hc)
  · have heq := List.mem_singleton.mp h1
    injection heq with h2 h3
    exact ⟨h2, h3⟩

lemma countP_isAppend_uploads {b1 : List ApiCall}
    (hb : ∀ c ∈ b1, ∃ f r, c = ApiCall.driveUpload f r) :
    b1.countP ApiCall.isAppend = 0 := by
  apply List.countP_eq_zero.mpr
  intro c hc
  obtain ⟨f, r, heq⟩ := hb c hc
  simp [heq, ApiCall.isAppend]

/-- C4: the scheduling page rejects any `notification_date` not strictly
after `today` with the date error and performs no outbound call at all; for
any later date it proceeds: whenever the message build returns, the handler
makes the append call with the notification row. -/
theorem scheduling_rejects_past_dates (env : Env) (today : PyDate) (form : Form) :
    (dateLe form.notification_date today = true →
       schedulingSubmit env today form
         = { calls := [], errors := [schedulingDateError], successes := [], uncaught := none })
    ∧ (dateLe form.notification_date today = false →
       ∀ fm, (buildFinalMessageE env form.notification_message form.uploaded_files
           form.attachment_position).2 = Except.ok fm →
         ∃ r, (schedulingSubmit env today form).calls
           = (buildFinalMessageE env form.notification_message form.uploaded_files
               form.attachment_position).1
             ++ [ApiCall.sheetAppend (rowFor form fm) r]) := by
  constructor
  · intro h
    simp [schedulingSubmit, h]
  · intro hd fm hfm
    rcases scheduling_cases env today form
        (buildFinalMessageE env form.notification_message form.uploaded_files
          form.attachment_position) rfl with
      ⟨h1, _⟩ | ⟨_, (⟨e, he, _⟩ | ⟨fm2, hfm2, hsub⟩)⟩
    · rw [h1] at hd
      cases hd
    · rw [hfm] at he
      cases he
    · rw [hfm] at hfm2
      injection hfm2 with hfmeq
      subst hfmeq
      rcases hsub with ⟨_, hrun⟩ | ⟨e, _, hrun⟩
      · exact ⟨Except.ok (), by simp [hrun]⟩
      · exact ⟨Except.error e, by simp [hrun]⟩

/-- Witness for C4: a past date is rejected with no calls; a future date
leads to the append call with the row. -/
theorem scheduling_rejects_past_dates_witness :
    (schedulingSubmit envOk { year := 2025, month := 5, day := 5 } formPast
       = { calls := [], errors := [schedulingDateError], successes := [], uncaught := none })
    ∧ ∃ r, (schedulingSubmit envOk { year := 2025, month := 5, day := 5 } formFuture).calls
        = (buildFinalMessageE envOk formFuture.notification_message formFuture.uploaded_files
            formFuture.attachment_position).1
          ++ [ApiCall.sheetAppend (rowFor formFuture (assemble "hello" "" "" none)) r] :=
  ⟨(scheduling_rejects_past_dates envOk { year := 2025, month := 5, day := 5 } formPast).1
      (by decide),
   (scheduling_rejects_past_dates envOk { year := 2025, month := 5, day := 5 } formFuture).2
      (by decide) (assemble "hello" "" "" none) rfl⟩

/-- C5: on either page, every row handed to the append call is exactly the
five ordered values [subject, recipient-group, message, date string, "send"],
with the recipient group drawn from the fixed option list. -/
theorem appended_row_shape (env : Env) (today : PyDate) (form : Form)
    (hmem : form.recipients_sheet ∈ RECIPIENTS_OPTIONS) :
    (∀ row r, ApiCall.sheetAppend row r ∈ (instantSubmit env form).calls →
       ∃ fm, row = [form.notification_type, form.recipients_sheet, fm,
           dateStr form.notification_date, "send"]
         ∧ row.length = 5 ∧ row.getLast? = some "send"
         ∧ form.recipients_sheet ∈ RECIPIENTS_OPTIONS)
    ∧ (∀ row r, ApiCall.sheetAppend row r ∈ (schedulingSubmit env today form).calls →
       ∃ fm, row = [form.notification_type, form.recipients_sheet, fm,
           dateStr form.notification_date, "send"]
         ∧ row.length = 5 ∧ row.getLast? = some "send"
         ∧ form.recipients_sheet ∈ RECIPIENTS_OPTIONS) := by
  have hb := buildE_calls_upload env form.notification_message form.uploaded_files
    form.attachment_position
  constructor
  · intro row r hrow
    rcases instant_cases env form
        (buildFinalMessageE env form.notification_message form.uploaded_files
          form.attachment_position) rfl with
      ⟨e, _, hrun⟩ | ⟨fm, _, hsub⟩
    · rw [hrun] at hrow
      exact absurd hrow (fun hc => no_append_in_uploads hb hc)
    · rcases hsub with ⟨_, hrun⟩ | ⟨e, _, hrun⟩ <;>
        [skip; skip] <;>
        · rw [hrun] at hrow
          obtain ⟨hroweq, _⟩ := mem_calls_append_case hb hrow
          subst hroweq
          exact ⟨fm, rfl, rfl, rfl, hmem⟩
  · intro row r hrow
    rcases scheduling_cases env today form
        (buildFinalMessageE env form.notification_message form.uploaded_files
          form.attachment_position) rfl with
      ⟨_, hrun⟩ | ⟨_, (⟨e, _, hrun⟩ | ⟨fm, _, hsub⟩)⟩
    · rw [hrun] at hrow
      cases hrow
    · rw [hrun] at hrow
      exact absurd hrow (fun hc => no_append_in_uploads hb hc)
    · rcases hsub with ⟨_, hrun⟩ | ⟨e, _, hrun⟩ <;>
        · rw [hrun] at hrow
          obtain ⟨hroweq, _⟩ := mem_calls_append_case hb hrow
          subst hroweq
          exact ⟨fm, rfl, rfl, rfl, hmem⟩

/-- Witness for C5: the single append call of a concrete instant submission
carries the five-value row. -/
theorem appended_row_shape_witness :
    ∃ fm, ["Subject", "Zummey", assemble "hello" "" "" none, "2030-06-01", "send"]
        = ["Subject", "Zummey", fm, dateStr formFuture.notification_date, "send"]
      ∧ (["Subject", "Zummey", assemble "hello" "" "" none, "2030-06-01", "send"] : List String).length = 5
      ∧ (["Subject", "Zummey", assemble "hello" "" "" none, "2030-06-01", "send"] : List String).getLast? = some "send"
      ∧ ("Zummey" : String) ∈ RECIPIENTS_OPTIONS :=
  (appended_row_shape envOk { year := 2025, month := 5, day := 5 } formFuture
      (by decide)).1
    ["Subject", "Zummey", assemble "hello" "" "" none, "2030-06-01", "send"]
    (Except.ok ()) (by decide)

/-- C6: for a submission with a non-image attachment, every Drive upload call
precedes any append call in the trace; if the message build fails (an upload
raised) the append call never happens; and whatever the append outcome, the
trace keeps exactly the upload calls the build performed — there is no
compensating call of any kind (every call is an upload or the one append). -/
theorem upload_precedes_append (env : Env) (form : Form) (g : UploadedFile)
    (_hg : g ∈ form.uploaded_files) (_him : pyStartsWith g.ftype "image/" = false) :
    (∃ tail, (instantSubmit env form).calls
        = (buildFinalMessageE env form.notification_message form.uploaded_files
            form.attachment_position).1 ++ tail
      ∧ (∀ c ∈ (buildFinalMessageE env form.notification_message form.uploaded_files
            form.attachment_position).1, ∃ f r, c = ApiCall.driveUpload f r)
      ∧ (∀ c ∈ tail, ∃ row r, c = ApiCall.sheetAppend row r))
    ∧ (∀ e, (buildFinalMessageE env form.notification_message form.uploaded_files
          form.attachment_position).2 = Except.error e →
        (instantSubmit env form).calls
          = (buildFinalMessageE env form.notification_message form.uploaded_files
              form.attachment_position).1)
    ∧ (∀ c ∈ (instantSubmit env form).calls,
        ApiCall.isUpload c = true ∨ ApiCall.isAppend c = true) := by
  have hb := buildE_calls_upload env form.notification_message form.uploaded_files
    form.attachment_position
  have hbb : ∀ c ∈ (buildFinalMessageE env form.notification_message form.uploaded_files
      form.attachment_position).1, ApiCall.isUpload c = true := by
    intro c hc
    obtain ⟨f, r, heq⟩ := hb c hc
    simp [heq, ApiCall.isUpload]
  rcases instant_cases env form
      (buildFinalMessageE env form.notification_message form.uploaded_files
        form.attachment_position) rfl with
    ⟨e0, he0, hrun⟩ | ⟨fm, hfm, hsub⟩
  · refine ⟨⟨[], by simp [hrun], hb, by simp⟩, ?_, ?_⟩
    · intro e _
      simp [hrun]
    · intro c hc
      rw [hrun] at hc
      exact Or.inl (hbb c hc)
  · have hnotfail : ∀ e, (buildFinalMessageE env form.notification_message
        form.uploaded_files form.attachment_position).2 = Except.error e →
        (instantSubmit env form).calls
          = (buildFinalMessageE env form.notification_message form.uploaded_files
              form.attachment_position).1 := by
      intro e he
      rw [hfm] at he
      cases he
    rcases hsub with ⟨_, hrun⟩ | ⟨e, _, hrun⟩
    · refine ⟨⟨[ApiCall.sheetAppend (rowFor form fm) (Except.ok ())],
          by simp [hrun], hb, ?_⟩, hnotfail, ?_⟩
      · intro c hc
        exact ⟨rowFor form fm, Except.ok (), List.mem_singleton.mp hc⟩
      · intro c hc
        rw [hrun] at hc
        rcases List.mem_append.mp hc with h1 | h1
        · exact Or.inl (hbb c h1)
        · rw [List.mem_singleton.mp h1]
          exact Or.inr rfl
    · refine ⟨⟨[ApiCall.sheetAppend (rowFor form fm) (Except.error e)],
          by simp [hrun], hb, ?_⟩, hnotfail, ?_⟩
      · intro c hc
        exact ⟨rowFor form fm, Except.error e, List.mem_singleton.mp hc⟩
      · intro c hc
        rw [hrun] at hc
        rcases List.mem_append.mp hc with h1 | h1
        · exact Or.inl (hbb c h1)
        · rw [List.mem_singleton.mp h1]
          exact Or.inr rfl

/-- Witness for C6: a submission with one non-image attachment in the benign
world. -/
theorem upload_precedes_append_witness :
    ∃ tail, (instantSubmit envOk formPdf).calls
        = (buildFinalMessageE envOk formPdf.notification_message formPdf.uploaded_files
            formPdf.attachment_position).1 ++ tail
      ∧ (∀ c ∈ (buildFinalMessageE envOk formPdf.notification_message formPdf.uploaded_files
            formPdf.attachment_position).1, ∃ f r, c = ApiCall.driveUpload f r)
      ∧ (∀ c ∈ tail, ∃ row r, c = ApiCall.sheetAppend row r) :=
  (upload_precedes_append envOk formPdf pdfFile (by decide) (by decide)).1

/-- C7 counterexample: with a failing Drive upload and one non-image
attachment, the instant page surfaces no error message and the exception
escapes the handler uncaught — `build_final_message` runs outside the `try`
block, which guards only the row append. -/
theorem upload_failure_uncaught_counterexample :
    ¬ ((instantSubmit envUploadFail formPdf).uncaught = none
       ∧ (instantSubmit envUploadFail formPdf).errors ≠ []) := by
  decide

/-- C7 (amended): on the instant page a row-append failure is caught and
surfaced as the page's error message with no retry (the one append call is
the only one), and the handler raises nothing; but a Drive upload failure
escapes the handler uncaught, with no error message shown. -/
theorem api_failure_handling (env : Env) (form : Form) :
    (∀ fm e, (buildFinalMessageE env form.notification_message form.uploaded_files
         form.attachment_position).2 = Except.ok fm →
       env.append (rowFor form fm) = Except.error e →
       (instantSubmit env form).errors
           = ["An error occurred while sending the notification: " ++ e]
         ∧ (instantSubmit env form).uncaught = none
         ∧ (instantSubmit env form).calls.countP ApiCall.isAppend = 1)
    ∧ (∀ e, (buildFinalMessageE env form.notification_message form.uploaded_files
         form.attachment_position).2 = Except.error e →
       (instantSubmit env form).uncaught = some e
         ∧ (instantSubmit env form).errors = []) := by
  have hb := buildE_calls_upload env form.notification_message form.uploaded_files
    form.attachment_position
  rcases instant_cases env form
      (buildFinalMessageE env form.notification_message form.uploaded_files
        form.attachment_position) rfl with
    ⟨e0, he0, hrun⟩ | ⟨fm0, hfm0, hsub⟩
  · constructor
    · intro fm e hok _
      rw [hok] at he0
      cases he0
    · intro e he
      rw [he0] at he
      injection he with h
      subst h
      simp [hrun]
  · constructor
    · intro fm e hok hap
      rw [hok] at hfm0
      injection hfm0 with hfmeq
      subst hfmeq
      rcases hsub with ⟨hap0, hrun⟩ | ⟨e0, hap0, hrun⟩
      · rw [hap0] at hap
        cases hap
      · rw [hap0] at hap
        injection hap with heq
        subst heq
        refine ⟨by simp [hrun], by simp [hrun], ?_⟩
        simp [hrun, List.countP_append, countP_isAppend_uploads hb, ApiCall.isAppend,
          List.countP_cons]
    · intro e he
      rw [hfm0] at he
      cases he

/-- Witness for C7: an append failure is surfaced with one append call and
nothing uncaught; an upload failure leaves no message and escapes. -/
theorem api_failure_handling_witness :
    ((instantSubmit envAppendFail formFuture).errors
        = ["An error occurred while sending the notification: " ++ "quota"]
      ∧ (instantSubmit envAppendFail formFuture).uncaught = none
      ∧ (instantSubmit envAppendFail formFuture).calls.countP ApiCall.isAppend = 1)
    ∧ ((instantSubmit envUploadFail formPdf).uncaught = some "boom"
      ∧ (instantSubmit envUploadFail formPdf).errors = []) :=
  ⟨(api_failure_handling envAppendFail formFuture).1 (assemble "hello" "" "" none) "quota"
      rfl rfl,
   (api_failure_handling envUploadFail formPdf).2 "boom" rfl⟩

lemma calls_shape_aux (b1 : List ApiCall)
    (hb : ∀ c ∈ b1, ∃ f r, c = ApiCall.driveUpload f r)
    (tail : List ApiCall)
    (ht : ∀ c ∈ tail, ∃ row r, c = ApiCall.sheetAppend row r)
    (htl : tail.length ≤ 1) :
    (∀ c ∈ b1 ++ tail, ApiCall.isUpload c = true ∨ ApiCall.isAppend c = true)
    ∧ (b1 ++ tail).countP ApiCall.isAppend ≤ 1 := by
  constructor
  · intro c hc
    rcases List.mem_append.mp hc with h1 | h1
    · obtain ⟨f, r, heq⟩ := hb c h1
      exact Or.inl (by simp [heq, ApiCall.isUpload])
    · obtain ⟨row, r, heq⟩ := ht c h1
      exact Or.inr (by simp [heq, ApiCall.isAppend])
  · rw [List.countP_append, countP_isAppend_uploads hb]
    have := List.countP_le_length (l := tail) (p := ApiCall.isAppend)
    omega

/-- C8: whatever the environment does, a submission on either page only ever
performs Drive uploads and at most one spreadsheet row append: the trace
never contains a read, update or delete of the sheet. -/
theorem sheet_append_only (env : Env) (today : PyDate) (form : Form) :
    (∀ c ∈ (instantSubmit env form).calls,
        ApiCall.isUpload c = true ∨ ApiCall.isAppend c = true)
    ∧ (instantSubmit env form).calls.countP ApiCall.isAppend ≤ 1
    ∧ (∀ c ∈ (schedulingSubmit env today form).calls,
        ApiCall.isUpload c = true ∨ ApiCall.isAppend c = true)
    ∧ (schedulingSubmit env today form).calls.countP ApiCall.isAppend ≤ 1 := by
  have hb := buildE_calls_upload env form.notification_message form.uploaded_files
    form.attachment_position
  have hinst : (∀ c ∈ (instantSubmit env form).calls,
      ApiCall.isUpload c = true ∨ ApiCall.isAppend c = true)
      ∧ (instantSubmit env form).calls.countP ApiCall.isAppend ≤ 1 := by
    rcases instant_cases env form
        (buildFinalMessageE env form.notification_message form.uploaded_files
          form.attachment_position) rfl with
      ⟨e, _, hrun⟩ | ⟨fm, _, (⟨_, hrun⟩ | ⟨e, _, hrun⟩)⟩
    · rw [hrun]
      simpa using calls_shape_aux _ hb [] (by simp) (by simp)
    · rw [hrun]
      exact calls_shape_aux _ hb [ApiCall.sheetAppend (rowFor form fm) (Except.ok ())]
        (by simp) (by simp)
    · rw [hrun]
      exact calls_shape_aux _ hb [ApiCall.sheetAppend (rowFor form fm) (Except.error e)]
        (by simp) (by simp)
  have hsched : (∀ c ∈ (schedulingSubmit env today form).calls,
      ApiCall.isUpload c = true ∨ ApiCall.isAppend c = true)
      ∧ (schedulingSubmit env today form).calls.countP ApiCall.isAppend ≤ 1 := by
    rcases scheduling_cases env today form
        (buildFinalMessageE env form.notification_message form.uploaded_files
          form.attachment_position) rfl with
      ⟨_, hrun⟩ | ⟨_, (⟨e, _, hrun⟩ | ⟨fm, _, (⟨_, hrun⟩ | ⟨e, _, hrun⟩)⟩)⟩
    · rw [hrun]
      exact ⟨by simp, by simp⟩
    · rw [hrun]
      simpa using calls_shape_aux _ hb [] (by simp) (by simp)
    · rw [hrun]
      exact calls_shape_aux _ hb [ApiCall.sheetAppend (rowFor form fm) (Except.ok ())]
        (by simp) (by simp)
    · rw [hrun]
      exact calls_shape_aux _ hb [ApiCall.sheetAppend (rowFor form fm) (Except.error e)]
        (by simp) (by simp)
  exact ⟨hinst.1, hinst.2, hsched.1, hsched.2⟩

/-- Witness for C8: the single call of a concrete instant submission is the
row append. -/
theorem sheet_append_only_witness :
    ApiCall.isUpload (ApiCall.sheetAppend (rowFor formFuture (assemble "hello" "" "" none))
        (Except.ok ())) = true
      ∨ ApiCall.isAppend (ApiCall.sheetAppend (rowFor formFuture (assemble "hello" "" "" none))
        (Except.ok ())) = true :=
  (sheet_append_only envOk { year := 2025, month := 5, day := 5 } formFuture).1
    (ApiCall.sheetAppend (rowFor formFuture (assemble "hello" "" "" none)) (Except.ok ()))
    (by decide)

/-- C9: the instant page never validates the date: for every form — any
`notification_date`, past dates included — a submission in a benign world
builds the message, appends the row and reports success, with no error and
nothing uncaught. -/
theorem instant_no_date_validation (env : Env) (form : Form)
    (hup : ∀ f, ∃ l, env.upload f = Except.ok l)
    (hap : ∀ row, env.append row = Except.ok ()) :
    ∃ fm, (buildFinalMessageE env form.notification_message form.uploaded_files
        form.attachment_position).2 = Except.ok fm
      ∧ instantSubmit env form
          = { calls := (buildFinalMessageE env form.notification_message form.uploaded_files
                form.attachment_position).1
                ++ [ApiCall.sheetAppend (rowFor form fm) (Except.ok ())],
              errors := [], successes := ["Notification sent successfully!"],
              uncaught := none } := by
  obtain ⟨q, hq⟩ := driveLoop_ok env form.uploaded_files hup
  have hok : (buildFinalMessageE env form.notification_message form.uploaded_files
      form.attachment_position).2
      = Except.ok (assemble form.notification_message q.1 q.2 form.attachment_position) := by
    simp [buildFinalMessageE, hq, Except.map]
  refine ⟨_, hok, ?_⟩
  rcases instant_cases env form
      (buildFinalMessageE env form.notification_message form.uploaded_files
        form.attachment_position) rfl with
    ⟨e, he, _⟩ | ⟨fm0, hfm0, hsub⟩
  · rw [hok] at he
    cases he
  · rw [hok] at hfm0
    injection hfm0 with heq
    subst heq
    rcases hsub with ⟨_, hrun⟩ | ⟨e, hapE, _⟩
    · exact hrun
    · rw [hap _] at hapE
      cases hapE

/-- Witness for C9: a past-dated form on the instant page succeeds in the
benign world. -/
theorem instant_no_date_validation_witness :
    ∃ fm, (buildFinalMessageE envOk formPast.notification_message formPast.uploaded_files
        formPast.attachment_position).2 = Except.ok fm
      ∧ instantSubmit envOk formPast
          = { calls := (buildFinalMessageE envOk formPast.notification_message
                formPast.uploaded_files formPast.attachment_position).1
                ++ [ApiCall.sheetAppend (rowFor formPast fm) (Except.ok ())],
              errors := [], successes := ["Notification sent successfully!"],
              uncaught := none } :=
  instant_no_date_validation envOk formPast (fun _ => ⟨"https://drive.example/f", rfl⟩)
    (fun _ => rfl)
